import Mathlib

/-!
# The forwarding relay of `server/resolver.go`

A shallow embedding of the request handler registered in `main`, of
`isHopByHopHeader`, and of the client's `CheckRedirect` policy, followed by
the properties of the relay stated over that embedding.

Conventions of the embedding.

* A Go `map[string][]string` (`http.Header`, `url.Values`) is an association
  list `List (String × List String)`; a well-formed map has pairwise distinct
  keys (`Header.WF`).  `range` over a map is a fold over the list, in the order
  of the list: Go leaves the order unspecified, and the statements below
  quantify over every list, hence over every order.
* The `http.ResponseWriter` is an explicit state (`ResponseWriter`) threaded
  through the handler.
* The calls into the standard library whose result depends on the outside
  world or on tables that are not part of this repository are parameters,
  gathered in `Env`: `url.Parse`, the method check of `http.NewRequest`, and
  `client.Do`.
* The handler returns, next to the final state of the writer, the list of the
  requests it handed to `client.Do`, so that "no upstream call is made" is the
  statement that this list is empty.
-/

deriving instance DecidableEq for Except

namespace Resolver

/-! ## Strings and bytes -/

/-- Go `strings.ToLower` on the strings the program applies it to.  HTTP header
field names are ASCII, and on ASCII strings `strings.ToLower` maps `A`..`Z` to
`a`..`z` and keeps every other byte. -/
def ToLower (s : String) : String :=
  ⟨s.data.map Char.toLower⟩

/-- The bytes of a string, as written by `fmt.Fprintln` and friends. -/
def bytes (s : String) : List UInt8 :=
  s.toUTF8.data.toList

/-! ## Maps from names to lists of values -/

/-- Go `http.Header` (and `url.Values`): `map[string][]string`. -/
abbrev Header := List (String × List String)

namespace Header

/-- The keys of the map, in the order of the list. -/
def keys (h : Header) : List String :=
  h.map Prod.fst

/-- A Go map holds each key once. -/
def WF (h : Header) : Prop :=
  h.keys.Nodup

instance (h : Header) : Decidable h.WF :=
  inferInstanceAs (Decidable (List.Nodup _))

/-- Go `h[k]` read with the comma-ok form: `none` when the key is absent. -/
def get? : Header → String → Option (List String)
  | [], _ => none
  | (k', v) :: rest, k => if k' = k then some v else get? rest k

/-- Go `h[k] = v`: replaces the entry of `k`, or adds one. -/
def assign : Header → String → List String → Header
  | [], k, v => [(k, v)]
  | (k', v') :: rest, k, v =>
    if k' = k then (k, v) :: rest else (k', v') :: assign rest k v

/-- Go `Header.Set(key, value)`: `h[CanonicalHeaderKey(key)] = []string{value}`.
Every key this program passes to `Set` is written in canonical form already
(`Access-Control-Allow-Origin`, `Content-Type`, ...), where
`CanonicalHeaderKey` is the identity. -/
def Set (h : Header) (key value : String) : Header :=
  h.assign key [value]

/-- Go `Values.Get(key)`: the first value of `key`, or `""` when there is
none. -/
def Get (v : Header) (key : String) : String :=
  match v.get? key with
  | none => ""
  | some [] => ""
  | some (x :: _) => x

end Header

/-! ## The spelling of header names -/

/-- The test `validHeaderFieldByte` of `net/textproto`: the token characters
of HTTP, that is the letters, the digits and fifteen marks. -/
def validHeaderFieldByte (c : Char) : Bool :=
  c.isAlphanum || "!#$%&'*+-.^_`|~".data.contains c

/-- The loop of `canonicalMIMEHeaderKey` in `net/textproto`: upper case for the
first letter and for a letter that follows a hyphen, lower case for every
other letter; `upper` tells whether the next letter is to be in upper case. -/
def canonicalLoop : Bool → List Char → List Char
  | _, [] => []
  | upper, c :: rest =>
    let c := if upper && c.isLower then c.toUpper
      else if !upper && c.isUpper then c.toLower else c
    c :: canonicalLoop (c == '-') rest

/-- Go `http.CanonicalHeaderKey`: a name made of token characters is put in
canonical spelling, any other name is returned as it is.  The server of
`net/http`, the only caller of the handler, stores every header name under
this spelling in `r.Header`. -/
def CanonicalHeaderKey (s : String) : String :=
  if s.data.all validHeaderFieldByte then ⟨canonicalLoop true s.data⟩ else s

/-! ## Requests, responses, the writer -/

/-- The fields of Go `url.URL` that the handler reads. -/
structure URL where
  Scheme : String
  Host : String
  Path : String
  deriving DecidableEq, Repr

/-- The inbound `*http.Request` as the handler sees it: `r.Method`,
`r.URL.Query()`, `r.Header`, `r.Body`. -/
structure InboundRequest where
  Method : String
  Query : Header
  Header : Header
  Body : List UInt8
  deriving DecidableEq, Repr

/-- The outbound `*http.Request` built by `http.NewRequest`.  `URL` is the
string the request was created for (the library keeps its parsed form). -/
structure Request where
  Method : String
  URL : String
  Header : Header
  Body : List UInt8
  deriving DecidableEq, Repr

/-- The upstream `*http.Response`: `resp.StatusCode`, `resp.Header`,
`resp.Body`. -/
structure Response where
  StatusCode : Nat
  Header : Header
  Body : List UInt8
  deriving DecidableEq, Repr

/-- State of the `http.ResponseWriter`: the header map `w.Header()`, the
status written by `WriteHeader` (`none` before the first call), and the bytes
written to the body. -/
structure ResponseWriter where
  header : Header
  status : Option Nat
  body : List UInt8
  deriving DecidableEq, Repr

namespace ResponseWriter

/-- The writer the server hands to the handler: nothing set, nothing written. -/
def fresh : ResponseWriter :=
  { header := [], status := none, body := [] }

/-- Go `w.Header().Set(key, value)`. -/
def SetHeader (w : ResponseWriter) (key value : String) : ResponseWriter :=
  { w with header := w.header.Set key value }

/-- Go `w.Header()[k] = v`. -/
def assignHeader (w : ResponseWriter) (k : String) (v : List String) : ResponseWriter :=
  { w with header := w.header.assign k v }

/-- Go `w.WriteHeader(code)`: the first call fixes the status, a later one is
ignored. -/
def WriteHeader (w : ResponseWriter) (code : Nat) : ResponseWriter :=
  match w.status with
  | none => { w with status := some code }
  | some _ => w

/-- Go `w.Write(data)`: writes status 200 first when no status was written. -/
def Write (w : ResponseWriter) (data : List UInt8) : ResponseWriter :=
  let w := match w.status with
    | none => w.WriteHeader 200
    | some _ => w
  { w with body := w.body ++ data }

end ResponseWriter

/-- Go `http.Error(w, error, code)`: sets `Content-Type` and
`X-Content-Type-Options`, writes the status, then the message and a newline.
(The library also deletes `Content-Length`; the handler calls `http.Error`
only on a writer whose header map is still empty.) -/
def Error (w : ResponseWriter) (error : String) (code : Nat) : ResponseWriter :=
  let w := w.SetHeader "Content-Type" "text/plain; charset=utf-8"
  let w := w.SetHeader "X-Content-Type-Options" "nosniff"
  let w := w.WriteHeader code
  w.Write (bytes (error ++ "\n"))

/-! ## The library calls taken as parameters -/

/-- What the handler uses of the standard library and of the network. -/
structure Env where
  /-- Go `url.Parse`. -/
  Parse : String → Except String URL
  /-- The method check `validMethod` inside `http.NewRequest`. -/
  validMethod : String → Bool
  /-- Go `client.Do`: the upstream response, or the text of the error. -/
  Do : Request → Except String Response

/-- Go `http.NewRequest(method, url, body)`: an empty method means `GET`; the
call fails on a method that is not a token and on a URL that does not parse;
the new request has an empty header map. -/
def NewRequest (env : Env) (method url : String) (body : List UInt8) :
    Except String Request :=
  let method := if method = "" then "GET" else method
  if env.validMethod method then
    match env.Parse url with
    | .error e => .error e
    | .ok _ => .ok { Method := method, URL := url, Header := [], Body := body }
  else
    .error ("net/http: invalid method " ++ method)

/-! ## `isHopByHopHeader` -/

/-- The slice `hopByHop` of `isHopByHopHeader`. -/
def hopByHop : List String :=
  [ "Connection",
    "Keep-Alive",
    "Proxy-Authenticate",
    "Proxy-Authorization",
    "Te",
    "Trailers",
    "Transfer-Encoding",
    "Upgrade" ]

/-- The loop of `isHopByHopHeader`, over the rest of the slice; `header` is
already in lower case. -/
def isHopByHopHeaderLoop (header : String) : List String → Bool
  | [] => false
  | h :: rest => if ToLower h = header then true else isHopByHopHeaderLoop header rest

/-- Go `isHopByHopHeader`. -/
def isHopByHopHeader (header : String) : Bool :=
  isHopByHopHeaderLoop (ToLower header) hopByHop

/-! ## The handler -/

/-- The loop `for k, v := range r.Header` that copies the request headers:
`acc` is `proxyReq.Header`. -/
def copyRequestHeaders : Header → Header → Header
  | [], acc => acc
  | (k, v) :: rest, acc =>
    if !isHopByHopHeader k && k != "Host" then
      copyRequestHeaders rest (acc.assign k v)
    else
      copyRequestHeaders rest acc

/-- The loop `for k, v := range resp.Header` that copies the response headers
into `w.Header()`. -/
def copyResponseHeaders : Header → ResponseWriter → ResponseWriter
  | [], w => w
  | (k, v) :: rest, w =>
    if !isHopByHopHeader k then
      copyResponseHeaders rest (w.assignHeader k v)
    else
      copyResponseHeaders rest w

/-- The four `w.Header().Set` calls under `// Set CORS headers`. -/
def setCORSHeaders (w : ResponseWriter) : ResponseWriter :=
  let w := w.SetHeader "Access-Control-Allow-Origin" "*"
  let w := w.SetHeader "Access-Control-Allow-Methods" "GET, POST, PUT, DELETE, OPTIONS, PATCH"
  let w := w.SetHeader "Access-Control-Allow-Headers" "*"
  w.SetHeader "Access-Control-Expose-Headers" "*"

/-- What one run of the handler leaves behind: the writer, and the requests
handed to `client.Do`, oldest first. -/
structure Outcome where
  w : ResponseWriter
  dispatched : List Request
  deriving DecidableEq, Repr

/-- The function registered with `http.HandleFunc("/", ...)`. -/
def handler (env : Env) (w : ResponseWriter) (r : InboundRequest) : Outcome :=
  -- Extract target URL from query parameter
  let targetURL := r.Query.Get "url"
  if targetURL = "" then
    { w := Error w "Missing 'url' query parameter" 400, dispatched := [] }
  else
    -- Validate URL
    match env.Parse targetURL with
    | .error _ => { w := Error w "Invalid URL" 400, dispatched := [] }
    | .ok parsed =>
      if parsed.Scheme ≠ "http" ∧ parsed.Scheme ≠ "https" then
        { w := Error w "Invalid URL" 400, dispatched := [] }
      else
        -- Create new request
        match NewRequest env r.Method targetURL r.Body with
        | .error _ => { w := Error w "Failed to create request" 500, dispatched := [] }
        | .ok proxyReq =>
          -- Copy relevant headers (skip Host and connection-related headers)
          let proxyReq := { proxyReq with Header := copyRequestHeaders r.Header proxyReq.Header }
          -- Make request
          match env.Do proxyReq with
          | .error err =>
            { w := Error w ("Failed to fetch URL: " ++ err) 502, dispatched := [proxyReq] }
          | .ok resp =>
            -- Set CORS headers
            let w := setCORSHeaders w
            -- Handle preflight
            if r.Method = "OPTIONS" then
              { w := w.WriteHeader 200, dispatched := [proxyReq] }
            else
              -- Copy response headers (skip hop-by-hop headers)
              let w := copyResponseHeaders resp.Header w
              -- Write status and body
              let w := w.WriteHeader resp.StatusCode
              let w := w.Write resp.Body
              { w := w, dispatched := [proxyReq] }

/-- The request the handler hands to `client.Do` when it gets that far: what
`http.NewRequest(r.Method, targetURL, r.Body)` returns, with the headers the
copy loop puts in. -/
def outbound (r : InboundRequest) : Request :=
  { Method := (if r.Method = "" then "GET" else r.Method),
    URL := r.Query.Get "url",
    Header := copyRequestHeaders r.Header [],
    Body := r.Body }

/-- The handler on the writer the server provides. -/
def serve (env : Env) (r : InboundRequest) : Outcome :=
  handler env ResponseWriter.fresh r

end Resolver

namespace Resolver

/-! ## The client and its redirect policy -/

/-- The errors of a `CheckRedirect` function, as the client tells them apart:
the sentinel `http.ErrUseLastResponse`, and any failure. -/
inductive RedirectError where
  | ErrUseLastResponse
  | failure (msg : String)
  deriving DecidableEq, Repr

/-- The `CheckRedirect` function of the client built in `main`; `none` is the
Go `nil`. -/
def CheckRedirect (_req : Request) (via : List Request) : Option RedirectError :=
  -- Follow up to 10 redirects
  if via.length ≥ 10 then
    some RedirectError.ErrUseLastResponse
  else
    none

/-- What the client makes of a response before it consults `CheckRedirect`:
the response is handed back (it is no redirect to follow, or it has no
`Location`), the `Location` cannot be used, or there is a request for the next
hop. -/
inductive NextHop where
  | stop
  | failed (err : String)
  | follow (req : Request)
  deriving DecidableEq, Repr

/-- The loop of `Client.do` in `net/http` around a `CheckRedirect` function
`check`.  `send` is one round trip; `next reqs resp` is what the library
computes from the requests made so far and the response just received;
`reqs` holds the requests already made, oldest first, and is what `check`
receives as `via`.  The Go loop has no bound; `fuel` bounds the number of round
trips here, and `none` means the fuel ran out.  The result carries the requests
that were sent. -/
def Client.doLoop (check : Request → List Request → Option RedirectError)
    (send : Request → Except String Response)
    (next : List Request → Response → NextHop) :
    Nat → List Request → Request → Option (Except String Response × List Request)
  | 0, _, _ => none
  | fuel + 1, reqs, req =>
    let reqs := reqs ++ [req]
    match send req with
    | .error e => some (.error e, reqs)
    | .ok resp =>
      match next reqs resp with
      | .stop => some (.ok resp, reqs)
      | .failed e => some (.error e, reqs)
      | .follow req' =>
        match check req' reqs with
        | some RedirectError.ErrUseLastResponse => some (.ok resp, reqs)
        | some (RedirectError.failure e) => some (.error e, reqs)
        | none => Client.doLoop check send next fuel reqs req'

/-- Go `client.Do` for the client of `main`: the loop above under the
`CheckRedirect` of `main`. -/
def Client.Do (send : Request → Except String Response)
    (next : List Request → Response → NextHop) (fuel : Nat) (req : Request) :
    Except String Response :=
  match Client.doLoop CheckRedirect send next fuel [] req with
  | some (res, _) => res
  | none => .error "redirects not settled"

/-! ## An environment for the examples -/

/-- The scan of `getScheme` in `net/url`: the scheme is the text before the
first `:`, provided it starts with a letter and holds only letters, digits,
`+`, `-` and `.`; `seen` is the text read so far, last character first. -/
def getScheme : List Char → List Char → Except String (List Char × List Char)
  | [], seen => .ok ([], seen.reverse)
  | c :: rest, seen =>
    if c.isAlpha then getScheme rest (c :: seen)
    else if c.isDigit ∨ c = '+' ∨ c = '-' ∨ c = '.' then
      if seen = [] then .ok ([], c :: rest) else getScheme rest (c :: seen)
    else if c = ':' then
      if seen = [] then .error "missing protocol scheme" else .ok (seen.reverse, rest)
    else .ok ([], seen.reverse ++ c :: rest)

/-- A parser for the examples: it splits off the scheme as `url.Parse` does
(in lower case) and keeps the rest as the path.  The theorems below hold for
every `Parse`. -/
def exampleParse (rawURL : String) : Except String URL :=
  match getScheme rawURL.data [] with
  | .error e => .error e
  | .ok (scheme, rest) => .ok { Scheme := ToLower ⟨scheme⟩, Host := "", Path := ⟨rest⟩ }

/-- An environment for the examples: `exampleParse`, every non-empty method
accepted, and the given upstream. -/
def exampleEnv (upstream : Request → Except String Response) : Env :=
  { Parse := exampleParse, validMethod := fun m => m != "", Do := upstream }

end Resolver

namespace Resolver

/-! ## Properties of the maps -/

theorem Header.get?_assign (h : Header) (k k' : String) (v : List String) :
    (h.assign k v).get? k' = if k = k' then some v else h.get? k' := by
  induction h with
  | nil => simp [Header.assign, Header.get?]
  | cons e rest ih =>
    obtain ⟨k0, v0⟩ := e
    by_cases h0 : k0 = k
    · subst h0
      by_cases h1 : k0 = k' <;> simp [Header.assign, Header.get?, h1]
    · by_cases h1 : k0 = k'
      · subst h1
        have : ¬ k = k0 := fun e => h0 e.symm
        simp [Header.assign, Header.get?, h0, this]
      · simp [Header.assign, Header.get?, h0, h1, ih]

theorem Header.get?_eq_none_iff (h : Header) (k : String) :
    h.get? k = none ↔ k ∉ h.keys := by
  induction h with
  | nil => simp [Header.get?, Header.keys]
  | cons e rest ih =>
    obtain ⟨k0, v0⟩ := e
    by_cases h0 : k0 = k
    · simp [Header.get?, Header.keys, h0]
    · have : ¬ k = k0 := fun e => h0 e.symm
      simp only [Header.keys] at ih
      simp [Header.get?, Header.keys, h0, this, ih]

theorem Header.keys_assign (h : Header) (k : String) (v : List String) (x : String) :
    x ∈ (h.assign k v).keys ↔ x = k ∨ x ∈ h.keys := by
  rw [← not_iff_not, ← Header.get?_eq_none_iff, Header.get?_assign, not_or,
    ← Header.get?_eq_none_iff]
  by_cases hx : k = x
  · simp [hx]
  · have : ¬ x = k := fun e => hx e.symm
    simp [hx, this]

theorem Header.WF_assign (h : Header) (k : String) (v : List String) (hwf : h.WF) :
    (h.assign k v).WF := by
  induction h with
  | nil => simp [Header.assign, Header.WF, Header.keys]
  | cons e rest ih =>
    obtain ⟨k0, v0⟩ := e
    have hwf' : k0 ∉ Header.keys rest ∧ Header.WF rest := by
      simpa [Header.WF, Header.keys] using hwf
    by_cases h0 : k0 = k
    · subst h0
      simpa [Header.assign, Header.WF, Header.keys] using hwf
    · have hk : k0 ∉ Header.keys (Header.assign rest k v) := by
        rw [Header.keys_assign]
        exact fun h => h.elim h0 hwf'.1
      have := ih hwf'.2
      simp only [Header.WF, Header.keys] at this hk ⊢
      simp [Header.assign, h0, this, hk]

/-! ## Properties of `isHopByHopHeader` -/

theorem isHopByHopHeaderLoop_iff (header : String) (l : List String) :
    isHopByHopHeaderLoop header l = true ↔ ∃ h ∈ l, ToLower h = header := by
  induction l with
  | nil => simp [isHopByHopHeaderLoop]
  | cons a rest ih =>
    by_cases ha : ToLower a = header
    · simp [isHopByHopHeaderLoop, ha]
    · simp [isHopByHopHeaderLoop, ha, ih]

/-- The function `isHopByHopHeader` answers `true` exactly on the names that
equal one of the eight listed names once both are put in lower case. -/
theorem isHopByHopHeader_iff (header : String) :
    isHopByHopHeader header = true ↔ ∃ h ∈ hopByHop, ToLower header = ToLower h := by
  rw [isHopByHopHeader, isHopByHopHeaderLoop_iff]
  constructor
  · rintro ⟨h, hm, he⟩
    exact ⟨h, hm, he.symm⟩
  · rintro ⟨h, hm, he⟩
    exact ⟨h, hm, he.symm⟩

/-! ## Properties of the writer and of `http.Error` -/

theorem bytes_append (a b : String) : bytes (a ++ b) = bytes a ++ bytes b := by
  simp [bytes, String.toUTF8]

theorem Error_status (w : ResponseWriter) (msg : String) (code : Nat)
    (hw : w.status = none) : (Error w msg code).status = some code := by
  simp [Error, ResponseWriter.Write, ResponseWriter.WriteHeader,
    ResponseWriter.SetHeader, hw]

theorem Error_body (w : ResponseWriter) (msg : String) (code : Nat) :
    (Error w msg code).body = w.body ++ bytes msg ++ bytes "\n" := by
  simp only [Error, ResponseWriter.Write, ResponseWriter.WriteHeader,
    ResponseWriter.SetHeader, bytes_append]
  cases w.status <;> simp

theorem Error_body_contains (w : ResponseWriter) (msg : String) (code : Nat) :
    bytes msg <:+: (Error w msg code).body := by
  rw [Error_body]
  exact ⟨w.body, bytes "\n", rfl⟩

end Resolver

namespace Resolver

/-! ## Properties of the two copy loops -/

theorem copyRequestHeaders_skip (h acc : Header) (k : String)
    (hk : isHopByHopHeader k = true ∨ k = "Host") :
    (copyRequestHeaders h acc).get? k = acc.get? k := by
  induction h generalizing acc with
  | nil => rfl
  | cons e rest ih =>
    obtain ⟨k0, v0⟩ := e
    by_cases hc : (!isHopByHopHeader k0 && k0 != "Host") = true
    · rw [copyRequestHeaders, if_pos hc, ih, Header.get?_assign]
      have hne : ¬ k0 = k := by
        rintro rfl
        rcases hk with hk | hk <;> simp [hk] at hc
      simp [hne]
    · rw [copyRequestHeaders, if_neg hc, ih]

theorem copyRequestHeaders_get? (h acc : Header) (k : String) (hwf : h.WF)
    (hk : ¬ (isHopByHopHeader k = true ∨ k = "Host")) :
    (copyRequestHeaders h acc).get? k =
      match h.get? k with
      | some v => some v
      | none => acc.get? k := by
  induction h generalizing acc with
  | nil => rfl
  | cons e rest ih =>
    obtain ⟨k0, v0⟩ := e
    have hwf' : k0 ∉ Header.keys rest ∧ Header.WF rest := by
      simpa [Header.WF, Header.keys] using hwf
    by_cases h0 : k0 = k
    · subst h0
      have hc : (!isHopByHopHeader k0 && k0 != "Host") = true := by
        simp only [not_or] at hk
        simp [hk.1, hk.2]
      have hnone : Header.get? rest k0 = none := (Header.get?_eq_none_iff _ _).2 hwf'.1
      rw [copyRequestHeaders, if_pos hc, ih _ hwf'.2, hnone]
      simp [Header.get?_assign, Header.get?]
    · by_cases hc : (!isHopByHopHeader k0 && k0 != "Host") = true
      · rw [copyRequestHeaders, if_pos hc, ih _ hwf'.2]
        simp [Header.get?_assign, Header.get?, h0]
      · rw [copyRequestHeaders, if_neg hc, ih _ hwf'.2]
        simp [Header.get?, h0]

theorem copyRequestHeaders_WF (h acc : Header) (hacc : acc.WF) :
    (copyRequestHeaders h acc).WF := by
  induction h generalizing acc with
  | nil => exact hacc
  | cons e rest ih =>
    obtain ⟨k0, v0⟩ := e
    by_cases hc : (!isHopByHopHeader k0 && k0 != "Host") = true
    · rw [copyRequestHeaders, if_pos hc]
      exact ih _ (Header.WF_assign _ _ _ hacc)
    · rw [copyRequestHeaders, if_neg hc]
      exact ih _ hacc

/-! ## The runs of the handler, path by path -/

theorem NewRequest_ok (env : Env) (method url : String) (body : List UInt8) (u : URL)
    (hp : env.Parse url = .ok u)
    (hv : env.validMethod (if method = "" then "GET" else method) = true) :
    NewRequest env method url body =
      .ok { Method := (if method = "" then "GET" else method), URL := url,
            Header := [], Body := body } := by
  simp [NewRequest, hp, hv]

theorem NewRequest_invalid (env : Env) (method url : String) (body : List UInt8)
    (hv : env.validMethod (if method = "" then "GET" else method) = false) :
    ∃ e, NewRequest env method url body = .error e := by
  simp [NewRequest, hv]

theorem serve_missing (env : Env) (r : InboundRequest) (h : r.Query.Get "url" = "") :
    serve env r =
      { w := Error ResponseWriter.fresh "Missing 'url' query parameter" 400,
        dispatched := [] } := by
  simp [serve, handler, h]

theorem serve_unparsed (env : Env) (r : InboundRequest) (e : String)
    (h : r.Query.Get "url" ≠ "") (hp : env.Parse (r.Query.Get "url") = .error e) :
    serve env r =
      { w := Error ResponseWriter.fresh "Invalid URL" 400, dispatched := [] } := by
  simp [serve, handler, h, hp]

theorem serve_scheme (env : Env) (r : InboundRequest) (u : URL)
    (h : r.Query.Get "url" ≠ "") (hp : env.Parse (r.Query.Get "url") = .ok u)
    (hs : u.Scheme ≠ "http" ∧ u.Scheme ≠ "https") :
    serve env r =
      { w := Error ResponseWriter.fresh "Invalid URL" 400, dispatched := [] } := by
  simp [serve, handler, h, hp, hs]

theorem serve_method (env : Env) (r : InboundRequest) (u : URL)
    (h : r.Query.Get "url" ≠ "") (hp : env.Parse (r.Query.Get "url") = .ok u)
    (hs : ¬ (u.Scheme ≠ "http" ∧ u.Scheme ≠ "https"))
    (hv : env.validMethod (if r.Method = "" then "GET" else r.Method) = false) :
    serve env r =
      { w := Error ResponseWriter.fresh "Failed to create request" 500,
        dispatched := [] } := by
  obtain ⟨e, he⟩ := NewRequest_invalid env r.Method (r.Query.Get "url") r.Body hv
  simp only [serve, handler, if_neg h, hp, if_neg hs, he]

theorem serve_unreachable (env : Env) (r : InboundRequest) (u : URL) (err : String)
    (h : r.Query.Get "url" ≠ "") (hp : env.Parse (r.Query.Get "url") = .ok u)
    (hs : ¬ (u.Scheme ≠ "http" ∧ u.Scheme ≠ "https"))
    (hv : env.validMethod (if r.Method = "" then "GET" else r.Method) = true)
    (hd : env.Do (outbound r) = .error err) :
    serve env r =
      { w := Error ResponseWriter.fresh ("Failed to fetch URL: " ++ err) 502,
        dispatched := [outbound r] } := by
  have hn := NewRequest_ok env r.Method (r.Query.Get "url") r.Body u hp hv
  simp only [outbound] at hd
  simp only [serve, handler, if_neg h, hp, if_neg hs, hn, hd, outbound]

theorem serve_preflight (env : Env) (r : InboundRequest) (u : URL) (resp : Response)
    (h : r.Query.Get "url" ≠ "") (hp : env.Parse (r.Query.Get "url") = .ok u)
    (hs : ¬ (u.Scheme ≠ "http" ∧ u.Scheme ≠ "https"))
    (hv : env.validMethod (if r.Method = "" then "GET" else r.Method) = true)
    (hd : env.Do (outbound r) = .ok resp) (hm : r.Method = "OPTIONS") :
    serve env r =
      { w := (setCORSHeaders ResponseWriter.fresh).WriteHeader 200,
        dispatched := [outbound r] } := by
  have hn := NewRequest_ok env r.Method (r.Query.Get "url") r.Body u hp hv
  simp only [outbound] at hd
  simp only [serve, handler, if_neg h, hp, if_neg hs, hn, hd, outbound, if_pos hm]

theorem serve_relay (env : Env) (r : InboundRequest) (u : URL) (resp : Response)
    (h : r.Query.Get "url" ≠ "") (hp : env.Parse (r.Query.Get "url") = .ok u)
    (hs : ¬ (u.Scheme ≠ "http" ∧ u.Scheme ≠ "https"))
    (hv : env.validMethod (if r.Method = "" then "GET" else r.Method) = true)
    (hd : env.Do (outbound r) = .ok resp) (hm : r.Method ≠ "OPTIONS") :
    serve env r =
      { w := ((copyResponseHeaders resp.Header
                (setCORSHeaders ResponseWriter.fresh)).WriteHeader resp.StatusCode).Write
                  resp.Body,
        dispatched := [outbound r] } := by
  have hn := NewRequest_ok env r.Method (r.Query.Get "url") r.Body u hp hv
  simp only [outbound] at hd
  simp only [serve, handler, if_neg h, hp, if_neg hs, hn, hd, outbound, if_neg hm]

/-- Every request handed to `client.Do` is the one built from the inbound
request. -/
theorem serve_dispatched (env : Env) (r : InboundRequest) (req : Request)
    (hreq : req ∈ (serve env r).dispatched) : req = outbound r := by
  by_cases h : r.Query.Get "url" = ""
  · simp [serve_missing env r h] at hreq
  · cases hp : env.Parse (r.Query.Get "url") with
    | error e => simp [serve_unparsed env r e h hp] at hreq
    | ok u =>
      by_cases hs : u.Scheme ≠ "http" ∧ u.Scheme ≠ "https"
      · simp [serve_scheme env r u h hp hs] at hreq
      · cases hv : env.validMethod (if r.Method = "" then "GET" else r.Method) with
        | false => simp [serve_method env r u h hp hs hv] at hreq
        | true =>
          cases hd : env.Do (outbound r) with
          | error err => simpa [serve_unreachable env r u err h hp hs hv hd] using hreq
          | ok resp =>
            by_cases hm : r.Method = "OPTIONS"
            · simpa [serve_preflight env r u resp h hp hs hv hd hm] using hreq
            · simpa [serve_relay env r u resp h hp hs hv hd hm] using hreq

end Resolver

namespace Resolver

/-! ## Rejected requests -/

/-- C1: when the `url` query parameter is absent, or its value is the empty
string, the response has status 400, its body contains the text
`Missing 'url' query parameter`, and no request is handed to `client.Do`;
method, headers and body of the inbound request play no part. -/
theorem missing_url_is_bad_request (env : Env) (r : InboundRequest)
    (h : r.Query.get? "url" = none ∨ ∃ rest, r.Query.get? "url" = some ("" :: rest)) :
    (serve env r).w.status = some 400 ∧
    bytes "Missing 'url' query parameter" <:+: (serve env r).w.body ∧
    (serve env r).dispatched = [] := by
  have hget : r.Query.Get "url" = "" := by
    rcases h with h | ⟨rest, h⟩ <;> simp [Header.Get, h]
  rw [serve_missing env r hget]
  exact ⟨Error_status _ _ _ rfl, Error_body_contains _ _ _, rfl⟩

theorem missing_url_is_bad_request_witness :
    (Header.get? [("q", ["1"])] "url" = none ∨
      ∃ rest, Header.get? [("q", ["1"])] "url" = some ("" :: rest)) ∧
    (serve (exampleEnv fun _ => .ok { StatusCode := 200, Header := [], Body := [] })
      { Method := "POST", Query := [("q", ["1"])], Header := [("X-A", ["b"])],
        Body := [1, 2] }).w.status = some 400 :=
  ⟨Or.inl (by decide),
   (missing_url_is_bad_request
      (exampleEnv fun _ => .ok { StatusCode := 200, Header := [], Body := [] })
      { Method := "POST", Query := [("q", ["1"])], Header := [("X-A", ["b"])],
        Body := [1, 2] } (Or.inl (by decide))).1⟩

/-- C2: when the `url` value is not empty and either does not parse or parses
with a scheme that is neither `http` nor `https`, the response has status 400,
its body contains the text `Invalid URL`, and no request is handed to
`client.Do`. -/
theorem invalid_url_is_bad_request (env : Env) (r : InboundRequest)
    (hne : r.Query.Get "url" ≠ "")
    (hbad : (∃ e, env.Parse (r.Query.Get "url") = .error e) ∨
      ∃ u, env.Parse (r.Query.Get "url") = .ok u ∧
        u.Scheme ≠ "http" ∧ u.Scheme ≠ "https") :
    (serve env r).w.status = some 400 ∧
    bytes "Invalid URL" <:+: (serve env r).w.body ∧
    (serve env r).dispatched = [] := by
  have hserve : serve env r =
      { w := Error ResponseWriter.fresh "Invalid URL" 400, dispatched := [] } := by
    rcases hbad with ⟨e, he⟩ | ⟨u, hu, hs⟩
    · exact serve_unparsed env r e hne he
    · exact serve_scheme env r u hne hu hs
  rw [hserve]
  exact ⟨Error_status _ _ _ rfl, Error_body_contains _ _ _, rfl⟩

theorem invalid_url_is_bad_request_witness :
    Header.Get [("url", ["ftp://x"])] "url" ≠ "" ∧
    exampleParse (Header.Get [("url", ["ftp://x"])] "url") =
      .ok { Scheme := "ftp", Host := "", Path := "//x" } ∧
    (serve (exampleEnv fun _ => .ok { StatusCode := 200, Header := [], Body := [] })
      { Method := "GET", Query := [("url", ["ftp://x"])], Header := [],
        Body := [] }).w.status = some 400 ∧
    (serve (exampleEnv fun _ => .ok { StatusCode := 200, Header := [], Body := [] })
      { Method := "GET", Query := [("url", ["ftp://x"])], Header := [],
        Body := [] }).dispatched = [] :=
  have h := invalid_url_is_bad_request
    (exampleEnv fun _ => .ok { StatusCode := 200, Header := [], Body := [] })
    { Method := "GET", Query := [("url", ["ftp://x"])], Header := [], Body := [] }
    (by decide)
    (Or.inr ⟨{ Scheme := "ftp", Host := "", Path := "//x" }, by decide, by decide,
      by decide⟩)
  ⟨by decide, by decide, h.1, h.2.2⟩

/-- The other examples of the specification: a `javascript:` value, a value
without a scheme, and a value that does not parse are all answered with 400
and never dispatched. -/
theorem invalid_url_examples :
    (∀ t ∈ ["javascript:alert(1)", "example.com/path", "://x", "file:///etc/passwd"],
      (serve (exampleEnv fun _ => .ok { StatusCode := 200, Header := [], Body := [] })
        { Method := "GET", Query := [("url", [t])], Header := [],
          Body := [] }).w.status = some 400 ∧
      (serve (exampleEnv fun _ => .ok { StatusCode := 200, Header := [], Body := [] })
        { Method := "GET", Query := [("url", [t])], Header := [],
          Body := [] }).dispatched = []) := by
  decide

/-! ## The outbound request -/

/-- C3: a header name that equals one of the eight hop-by-hop names once both
are put in lower case is not a key of the header map of any request handed to
`client.Do`, whatever the inbound headers are. -/
theorem hop_by_hop_not_forwarded (env : Env) (r : InboundRequest) (name h : String)
    (hh : h ∈ hopByHop) (hname : ToLower name = ToLower h) :
    ∀ req ∈ (serve env r).dispatched, name ∉ req.Header.keys := by
  intro req hreq
  rw [serve_dispatched env r req hreq, ← Header.get?_eq_none_iff]
  have hop : isHopByHopHeader name = true := (isHopByHopHeader_iff name).2 ⟨h, hh, hname⟩
  simpa [outbound, Header.get?] using
    copyRequestHeaders_skip r.Header [] name (Or.inl hop)

theorem hop_by_hop_not_forwarded_witness :
    "Connection" ∈ hopByHop ∧ ToLower "CONNECTION" = ToLower "Connection" ∧
    (serve (exampleEnv fun _ => .ok { StatusCode := 200, Header := [], Body := [] })
      { Method := "GET", Query := [("url", ["http://example.com"])],
        Header := [("CONNECTION", ["keep-alive"]), ("Accept", ["*/*"])],
        Body := [] }).dispatched ≠ [] ∧
    ∀ req ∈ (serve (exampleEnv fun _ => .ok { StatusCode := 200, Header := [], Body := [] })
      { Method := "GET", Query := [("url", ["http://example.com"])],
        Header := [("CONNECTION", ["keep-alive"]), ("Accept", ["*/*"])],
        Body := [] }).dispatched, "CONNECTION" ∉ req.Header.keys :=
  ⟨by decide, by decide, by decide,
   hop_by_hop_not_forwarded _ _ "CONNECTION" "Connection" (by decide) (by decide)⟩

end Resolver

namespace Resolver

/-- When validation passes and the request can be built, exactly one request is
handed to `client.Do`, whatever the upstream answers. -/
theorem serve_dispatched_eq (env : Env) (r : InboundRequest) (u : URL)
    (h : r.Query.Get "url" ≠ "") (hp : env.Parse (r.Query.Get "url") = .ok u)
    (hs : u.Scheme = "http" ∨ u.Scheme = "https")
    (hv : env.validMethod (if r.Method = "" then "GET" else r.Method) = true) :
    (serve env r).dispatched = [outbound r] := by
  have hs' : ¬ (u.Scheme ≠ "http" ∧ u.Scheme ≠ "https") := by
    rintro ⟨h1, h2⟩
    exact hs.elim h1 h2
  cases hd : env.Do (outbound r) with
  | error err => rw [serve_unreachable env r u err h hp hs' hv hd]
  | ok resp =>
    by_cases hm : r.Method = "OPTIONS"
    · rw [serve_preflight env r u resp h hp hs' hv hd hm]
    · rw [serve_relay env r u resp h hp hs' hv hd hm]

/-- The name `Host`, spelt so, is never a key of the outbound header map. -/
theorem host_not_forwarded (env : Env) (r : InboundRequest) :
    ∀ req ∈ (serve env r).dispatched, "Host" ∉ req.Header.keys := by
  intro req hreq
  rw [serve_dispatched env r req hreq, ← Header.get?_eq_none_iff]
  simpa [outbound, Header.get?] using
    copyRequestHeaders_skip r.Header [] "Host" (Or.inr rfl)

/-- The test on `Host` in the copy loop is made letter for letter: it is the
canonical spelling of the keys of `r.Header` that makes it reach every `Host`
header.  On a map that held the key `host` or `HOST`, which the server never
builds, the loop would copy the entry. -/
theorem host_test_is_exact :
    (serve (exampleEnv fun _ => .ok { StatusCode := 200, Header := [], Body := [] })
      { Method := "GET", Query := [("url", ["http://example.com"])],
        Header := [("host", ["internal.example"])], Body := [] }).dispatched =
      [{ Method := "GET", URL := "http://example.com",
         Header := [("host", ["internal.example"])], Body := [] }] ∧
    (serve (exampleEnv fun _ => .ok { StatusCode := 200, Header := [], Body := [] })
      { Method := "GET", Query := [("url", ["http://example.com"])],
        Header := [("HOST", ["internal.example"])], Body := [] }).dispatched =
      [{ Method := "GET", URL := "http://example.com",
         Header := [("HOST", ["internal.example"])], Body := [] }] := by
  decide

/-- C5: when validation passes and the request is built, one request is handed
to `client.Do`; it has the inbound method, the value of `url` as its target and
the inbound body, and its header map is a map (distinct keys) that holds, for
every name that is neither hop-by-hop nor `Host`, exactly the inbound list of
values of that name, and nothing for any other name. -/
theorem outbound_request_exact (env : Env) (r : InboundRequest) (u : URL)
    (hne : r.Query.Get "url" ≠ "") (hp : env.Parse (r.Query.Get "url") = .ok u)
    (hs : u.Scheme = "http" ∨ u.Scheme = "https")
    (hm : r.Method ≠ "") (hv : env.validMethod r.Method = true)
    (hwf : r.Header.WF) :
    ∃ req, (serve env r).dispatched = [req] ∧
      req.Method = r.Method ∧ req.URL = r.Query.Get "url" ∧ req.Body = r.Body ∧
      req.Header.WF ∧
      ∀ k, req.Header.get? k =
        if isHopByHopHeader k = true ∨ k = "Host" then none else r.Header.get? k := by
  have hv' : env.validMethod (if r.Method = "" then "GET" else r.Method) = true := by
    rw [if_neg hm]
    exact hv
  refine ⟨outbound r, serve_dispatched_eq env r u hne hp hs hv', ?_, rfl, rfl, ?_, ?_⟩
  · simp [outbound, hm]
  · exact copyRequestHeaders_WF r.Header [] (by simp [Header.WF, Header.keys])
  · intro k
    by_cases hk : isHopByHopHeader k = true ∨ k = "Host"
    · rw [if_pos hk]
      simpa [outbound, Header.get?] using copyRequestHeaders_skip r.Header [] k hk
    · rw [if_neg hk]
      show (copyRequestHeaders r.Header []).get? k = _
      rw [copyRequestHeaders_get? r.Header [] k hwf hk]
      cases Header.get? r.Header k <;> simp [Header.get?]

theorem outbound_request_exact_witness :
    Header.WF [("Connection", ["close"]), ("Host", ["relay.example"]),
      ("Accept", ["text/html", "*/*"]), ("x-trace", ["7"])] ∧
    ∃ req,
      (serve (exampleEnv fun _ => .error "connection refused")
        { Method := "PUT", Query := [("url", ["https://example.com/a"])],
          Header := [("Connection", ["close"]), ("Host", ["relay.example"]),
            ("Accept", ["text/html", "*/*"]), ("x-trace", ["7"])],
          Body := [104, 105] }).dispatched = [req] ∧
      req.Method = "PUT" ∧ req.Body = [104, 105] ∧
      req.Header.get? "Accept" = some ["text/html", "*/*"] ∧
      req.Header.get? "Connection" = none :=
  ⟨by decide,
   (outbound_request_exact (exampleEnv fun _ => .error "connection refused")
      { Method := "PUT", Query := [("url", ["https://example.com/a"])],
        Header := [("Connection", ["close"]), ("Host", ["relay.example"]),
          ("Accept", ["text/html", "*/*"]), ("x-trace", ["7"])],
        Body := [104, 105] }
      { Scheme := "https", Host := "", Path := "//example.com/a" }
      (by decide) (by decide) (by decide) (by decide) (by decide) (by decide)).imp
    fun _ h => ⟨h.1, h.2.1, h.2.2.2.1, (h.2.2.2.2.2 "Accept").trans (by decide),
      (h.2.2.2.2.2 "Connection").trans (by decide)⟩⟩

end Resolver

namespace Resolver

/-! ## The relayed response -/

theorem copyResponseHeaders_status (h : Header) (w : ResponseWriter) :
    (copyResponseHeaders h w).status = w.status ∧
    (copyResponseHeaders h w).body = w.body := by
  induction h generalizing w with
  | nil => exact ⟨rfl, rfl⟩
  | cons e rest ih =>
    obtain ⟨k0, v0⟩ := e
    by_cases hc : (!isHopByHopHeader k0) = true
    · rw [copyResponseHeaders, if_pos hc]
      exact ih _
    · rw [copyResponseHeaders, if_neg hc]
      exact ih _

theorem copyResponseHeaders_skip (h : Header) (w : ResponseWriter) (k : String)
    (hk : isHopByHopHeader k = true) :
    (copyResponseHeaders h w).header.get? k = w.header.get? k := by
  induction h generalizing w with
  | nil => rfl
  | cons e rest ih =>
    obtain ⟨k0, v0⟩ := e
    by_cases hc : (!isHopByHopHeader k0) = true
    · rw [copyResponseHeaders, if_pos hc, ih]
      have hne : ¬ k0 = k := by
        rintro rfl
        simp [hk] at hc
      simp [ResponseWriter.assignHeader, Header.get?_assign, hne]
    · rw [copyResponseHeaders, if_neg hc, ih]

theorem copyResponseHeaders_get? (h : Header) (w : ResponseWriter) (k : String)
    (hwf : h.WF) (hk : isHopByHopHeader k = false) :
    (copyResponseHeaders h w).header.get? k =
      match h.get? k with
      | some v => some v
      | none => w.header.get? k := by
  induction h generalizing w with
  | nil => rfl
  | cons e rest ih =>
    obtain ⟨k0, v0⟩ := e
    have hwf' : k0 ∉ Header.keys rest ∧ Header.WF rest := by
      simpa [Header.WF, Header.keys] using hwf
    by_cases h0 : k0 = k
    · subst h0
      have hc : (!isHopByHopHeader k0) = true := by simp [hk]
      have hnone : Header.get? rest k0 = none := (Header.get?_eq_none_iff _ _).2 hwf'.1
      rw [copyResponseHeaders, if_pos hc, ih _ hwf'.2, hnone]
      simp [ResponseWriter.assignHeader, Header.get?_assign, Header.get?]
    · by_cases hc : (!isHopByHopHeader k0) = true
      · rw [copyResponseHeaders, if_pos hc, ih _ hwf'.2]
        simp [ResponseWriter.assignHeader, Header.get?_assign, Header.get?, h0]
      · rw [copyResponseHeaders, if_neg hc, ih _ hwf'.2]
        simp [Header.get?, h0]

theorem setCORSHeaders_fresh :
    setCORSHeaders ResponseWriter.fresh =
      { header := [("Access-Control-Allow-Origin", ["*"]),
                   ("Access-Control-Allow-Methods", ["GET, POST, PUT, DELETE, OPTIONS, PATCH"]),
                   ("Access-Control-Allow-Headers", ["*"]),
                   ("Access-Control-Expose-Headers", ["*"])],
        status := none, body := [] } := by
  decide

/-- No hop-by-hop name is among the headers set under `// Set CORS headers`. -/
theorem setCORSHeaders_fresh_hop (k : String) (hk : isHopByHopHeader k = true) :
    (setCORSHeaders ResponseWriter.fresh).header.get? k = none := by
  rw [Header.get?_eq_none_iff, setCORSHeaders_fresh]
  intro hmem
  simp only [Header.keys, List.map_cons, List.map_nil, List.mem_cons, List.mem_singleton,
    List.not_mem_nil, or_false] at hmem
  rcases hmem with rfl | rfl | rfl | rfl <;> exact absurd hk (by decide)

/-- The run of the handler after a dispatch that succeeded. -/
theorem serve_forwarded (env : Env) (r : InboundRequest) (req : Request) (resp : Response)
    (hreq : req ∈ (serve env r).dispatched) (hd : env.Do req = .ok resp) :
    serve env r =
      if r.Method = "OPTIONS" then
        { w := (setCORSHeaders ResponseWriter.fresh).WriteHeader 200,
          dispatched := [outbound r] }
      else
        { w := ((copyResponseHeaders resp.Header
                  (setCORSHeaders ResponseWriter.fresh)).WriteHeader resp.StatusCode).Write
                    resp.Body,
          dispatched := [outbound r] } := by
  have hout := serve_dispatched env r req hreq
  subst hout
  by_cases h : r.Query.Get "url" = ""
  · simp [serve_missing env r h] at hreq
  · cases hp : env.Parse (r.Query.Get "url") with
    | error e => simp [serve_unparsed env r e h hp] at hreq
    | ok u =>
      by_cases hs : u.Scheme ≠ "http" ∧ u.Scheme ≠ "https"
      · simp [serve_scheme env r u h hp hs] at hreq
      · cases hv : env.validMethod (if r.Method = "" then "GET" else r.Method) with
        | false => simp [serve_method env r u h hp hs hv] at hreq
        | true =>
          by_cases hm : r.Method = "OPTIONS"
          · rw [if_pos hm]
            exact serve_preflight env r u resp h hp hs hv hd hm
          · rw [if_neg hm]
            exact serve_relay env r u resp h hp hs hv hd hm

/-- The header map the client receives on the relay path, name by name. -/
theorem relay_header_get? (resp : Response) (k : String) (hwf : resp.Header.WF) :
    (((copyResponseHeaders resp.Header
        (setCORSHeaders ResponseWriter.fresh)).WriteHeader resp.StatusCode).Write
          resp.Body).header.get? k =
      if isHopByHopHeader k = true then none
      else match resp.Header.get? k with
        | some v => some v
        | none => (setCORSHeaders ResponseWriter.fresh).header.get? k := by
  have hhdr : (((copyResponseHeaders resp.Header
        (setCORSHeaders ResponseWriter.fresh)).WriteHeader resp.StatusCode).Write
          resp.Body).header =
      (copyResponseHeaders resp.Header (setCORSHeaders ResponseWriter.fresh)).header := by
    have hst := (copyResponseHeaders_status resp.Header
      (setCORSHeaders ResponseWriter.fresh)).1
    rw [setCORSHeaders_fresh] at hst
    simp [ResponseWriter.Write, ResponseWriter.WriteHeader, setCORSHeaders_fresh, hst]
  rw [hhdr]
  by_cases hk : isHopByHopHeader k = true
  · rw [if_pos hk, copyResponseHeaders_skip _ _ _ hk, setCORSHeaders_fresh_hop k hk]
  · rw [if_neg hk]
    exact copyResponseHeaders_get? _ _ _ hwf (by simpa using hk)

end Resolver

namespace Resolver

/-- C6: after a successful dispatch of a request whose method is not `OPTIONS`,
no name that equals one of the eight hop-by-hop names once both are put in
lower case is a key of the header map of the response, and every other header
of the upstream response is in that map with the upstream list of values. -/
theorem response_headers_filtered (env : Env) (r : InboundRequest) (req : Request)
    (resp : Response) (hm : r.Method ≠ "OPTIONS")
    (hreq : req ∈ (serve env r).dispatched) (hd : env.Do req = .ok resp)
    (hwf : resp.Header.WF) :
    (∀ name h, h ∈ hopByHop → ToLower name = ToLower h →
      name ∉ (serve env r).w.header.keys) ∧
    (∀ k v, (∀ h ∈ hopByHop, ToLower k ≠ ToLower h) → resp.Header.get? k = some v →
      (serve env r).w.header.get? k = some v) := by
  rw [serve_forwarded env r req resp hreq hd, if_neg hm]
  constructor
  · intro name h hh hname
    have hop : isHopByHopHeader name = true :=
      (isHopByHopHeader_iff name).2 ⟨h, hh, hname⟩
    rw [← Header.get?_eq_none_iff, relay_header_get? resp name hwf, if_pos hop]
  · intro k v hk hv
    have hop : ¬ isHopByHopHeader k = true := by
      rw [isHopByHopHeader_iff]
      rintro ⟨h, hh, he⟩
      exact hk h hh he
    rw [relay_header_get? resp k hwf, if_neg hop, hv]

theorem response_headers_filtered_witness :
    Header.WF [("Connection", ["close"]), ("Content-Type", ["text/plain"]),
      ("Set-Cookie", ["a=1", "b=2"])] ∧
    "keep-alive" ∉ (serve
      (exampleEnv fun _ => .ok
        { StatusCode := 200,
          Header := [("Connection", ["close"]), ("Content-Type", ["text/plain"]),
          ("Set-Cookie", ["a=1", "b=2"])], Body := [111, 107] })
      { Method := "GET", Query := [("url", ["http://example.com"])], Header := [],
        Body := [] }).w.header.keys ∧
    (serve
      (exampleEnv fun _ => .ok
        { StatusCode := 200,
          Header := [("Connection", ["close"]), ("Content-Type", ["text/plain"]),
          ("Set-Cookie", ["a=1", "b=2"])], Body := [111, 107] })
      { Method := "GET", Query := [("url", ["http://example.com"])], Header := [],
        Body := [] }).w.header.get? "Set-Cookie" = some ["a=1", "b=2"] :=
  have h := response_headers_filtered
    (exampleEnv fun _ => .ok
      { StatusCode := 200,
        Header := [("Connection", ["close"]), ("Content-Type", ["text/plain"]),
        ("Set-Cookie", ["a=1", "b=2"])], Body := [111, 107] })
    { Method := "GET", Query := [("url", ["http://example.com"])], Header := [],
      Body := [] }
    { Method := "GET", URL := "http://example.com", Header := [], Body := [] }
    { StatusCode := 200,
      Header := [("Connection", ["close"]), ("Content-Type", ["text/plain"]),
        ("Set-Cookie", ["a=1", "b=2"])], Body := [111, 107] }
    (by decide) (by decide) rfl (by decide)
  ⟨by decide, h.1 "keep-alive" "Keep-Alive" (by decide) (by decide),
   h.2 "Set-Cookie" ["a=1", "b=2"] (by decide) (by decide)⟩

/-- On the relay path each of the four headers set under `// Set CORS headers`
is present; its value is the one set there unless the upstream response has a
header of that very name, whose list of values then replaces it. -/
theorem cors_header_on_relay_path (env : Env) (r : InboundRequest) (req : Request)
    (resp : Response) (hm : r.Method ≠ "OPTIONS")
    (hreq : req ∈ (serve env r).dispatched) (hd : env.Do req = .ok resp)
    (hwf : resp.Header.WF) (k value : String)
    (hk : (k, value) ∈ [("Access-Control-Allow-Origin", "*"),
      ("Access-Control-Allow-Methods", "GET, POST, PUT, DELETE, OPTIONS, PATCH"),
      ("Access-Control-Allow-Headers", "*"),
      ("Access-Control-Expose-Headers", "*")]) :
    (serve env r).w.header.get? k =
      match resp.Header.get? k with
      | some v => some v
      | none => some [value] := by
  rw [serve_forwarded env r req resp hreq hd, if_neg hm, relay_header_get? resp k hwf]
  simp only [List.mem_cons, List.mem_singleton, List.not_mem_nil, or_false,
    Prod.mk.injEq] at hk
  rcases hk with ⟨rfl, rfl⟩ | ⟨rfl, rfl⟩ | ⟨rfl, rfl⟩ | ⟨rfl, rfl⟩ <;>
    · rw [if_neg (by decide)]
      cases Header.get? resp.Header _ <;> simp [setCORSHeaders_fresh, Header.get?]

/-- C7: at an upstream response that carries `Access-Control-Allow-Origin` with
a value of its own, the dispatch succeeds, the status is relayed, and the value
the client sees under that name is the upstream one, not `*`: the copy of the
upstream headers runs after the four `Set` calls and overwrites them. -/
theorem upstream_cors_value_is_seen :
    (serve
      (exampleEnv fun _ => .ok
        { StatusCode := 200,
          Header := [("Access-Control-Allow-Origin", ["https://app.example"])],
          Body := [] })
      { Method := "GET", Query := [("url", ["http://example.com"])], Header := [],
        Body := [] }).w.status = some 200 ∧
    (serve
      (exampleEnv fun _ => .ok
        { StatusCode := 200,
          Header := [("Access-Control-Allow-Origin", ["https://app.example"])],
          Body := [] })
      { Method := "GET", Query := [("url", ["http://example.com"])], Header := [],
        Body := [] }).w.header.get? "Access-Control-Allow-Origin" =
      some ["https://app.example"] ∧
    (serve
      (exampleEnv fun _ => .ok
        { StatusCode := 200,
          Header := [("Access-Control-Allow-Origin", ["https://app.example"])],
          Body := [] })
      { Method := "GET", Query := [("url", ["http://example.com"])], Header := [],
        Body := [] }).w.header.get? "Access-Control-Allow-Origin" ≠ some ["*"] := by
  decide

/-- C8, as stated, fails: an `OPTIONS` request with a valid `http` target whose
dispatch succeeds with status 404 is answered with status 200. -/
theorem options_status_is_not_relayed :
    exampleParse "http://example.com" =
      .ok { Scheme := "http", Host := "", Path := "//example.com" } ∧
    (serve
      (exampleEnv fun _ => .ok { StatusCode := 404, Header := [], Body := [] })
      { Method := "OPTIONS", Query := [("url", ["http://example.com"])], Header := [],
        Body := [] }).dispatched =
      [{ Method := "OPTIONS", URL := "http://example.com", Header := [], Body := [] }] ∧
    (serve
      (exampleEnv fun _ => .ok { StatusCode := 404, Header := [], Body := [] })
      { Method := "OPTIONS", Query := [("url", ["http://example.com"])], Header := [],
        Body := [] }).w.status = some 200 ∧
    (serve
      (exampleEnv fun _ => .ok { StatusCode := 404, Header := [], Body := [] })
      { Method := "OPTIONS", Query := [("url", ["http://example.com"])], Header := [],
        Body := [] }).w.status ≠ some 404 := by
  decide

/-- C8, amended: after a successful dispatch with an upstream response of
status `s`, the status of the response is `s` when the inbound method is not
`OPTIONS`, and 200 when it is. -/
theorem status_relayed (env : Env) (r : InboundRequest) (req : Request)
    (resp : Response) (hreq : req ∈ (serve env r).dispatched)
    (hd : env.Do req = .ok resp) :
    (serve env r).w.status =
      some (if r.Method = "OPTIONS" then 200 else resp.StatusCode) := by
  rw [serve_forwarded env r req resp hreq hd]
  by_cases hm : r.Method = "OPTIONS"
  · simp [hm, setCORSHeaders_fresh, ResponseWriter.WriteHeader]
  · have hst := (copyResponseHeaders_status resp.Header
      (setCORSHeaders ResponseWriter.fresh)).1
    rw [setCORSHeaders_fresh] at hst
    simp [hm, setCORSHeaders_fresh, ResponseWriter.WriteHeader, ResponseWriter.Write, hst]

theorem status_relayed_witness :
    (serve
      (exampleEnv fun _ => .ok { StatusCode := 404, Header := [], Body := [110, 111] })
      { Method := "DELETE", Query := [("url", ["https://example.com/x"])],
        Header := [], Body := [] }).w.status = some 404 :=
  status_relayed
    (exampleEnv fun _ => .ok { StatusCode := 404, Header := [], Body := [110, 111] })
    { Method := "DELETE", Query := [("url", ["https://example.com/x"])],
      Header := [], Body := [] }
    { Method := "DELETE", URL := "https://example.com/x", Header := [], Body := [] }
    { StatusCode := 404, Header := [], Body := [110, 111] }
    (by decide) rfl

/-- An `OPTIONS` request with a valid target whose dispatch succeeds is answered
with status 200, an empty body and the four headers of `// Set CORS headers`,
whatever the upstream response is. -/
theorem preflight_after_successful_dispatch (env : Env) (r : InboundRequest)
    (req : Request) (resp : Response) (hm : r.Method = "OPTIONS")
    (hreq : req ∈ (serve env r).dispatched) (hd : env.Do req = .ok resp) :
    (serve env r).w =
      { header := [("Access-Control-Allow-Origin", ["*"]),
                   ("Access-Control-Allow-Methods", ["GET, POST, PUT, DELETE, OPTIONS, PATCH"]),
                   ("Access-Control-Allow-Headers", ["*"]),
                   ("Access-Control-Expose-Headers", ["*"])],
        status := some 200, body := [] } := by
  rw [serve_forwarded env r req resp hreq hd, if_pos hm, setCORSHeaders_fresh]
  rfl

/-- C9: at the request `OPTIONS /?url=http://example.com` with an upstream that
cannot be reached, the request is dispatched all the same, and the response has
status 502, a body that is not empty, and none of the four CORS headers: the
dispatch and its error return come before the preflight branch. -/
theorem preflight_fails_with_upstream :
    (serve (exampleEnv fun _ => .error "dial tcp: connection refused")
      { Method := "OPTIONS", Query := [("url", ["http://example.com"])], Header := [],
        Body := [] }).dispatched =
      [{ Method := "OPTIONS", URL := "http://example.com", Header := [], Body := [] }] ∧
    (serve (exampleEnv fun _ => .error "dial tcp: connection refused")
      { Method := "OPTIONS", Query := [("url", ["http://example.com"])], Header := [],
        Body := [] }).w.status = some 502 ∧
    (serve (exampleEnv fun _ => .error "dial tcp: connection refused")
      { Method := "OPTIONS", Query := [("url", ["http://example.com"])], Header := [],
        Body := [] }).w.body =
      bytes "Failed to fetch URL: dial tcp: connection refused\n" ∧
    (∀ k ∈ ["Access-Control-Allow-Origin", "Access-Control-Allow-Methods",
        "Access-Control-Allow-Headers", "Access-Control-Expose-Headers"],
      (serve (exampleEnv fun _ => .error "dial tcp: connection refused")
        { Method := "OPTIONS", Query := [("url", ["http://example.com"])], Header := [],
          Body := [] }).w.header.get? k = none) := by
  decide

end Resolver

namespace Resolver

/-! ## Redirects -/

/-- Under the `CheckRedirect` of `main` the loop of the client settles: from a
state with fewer than ten requests made, enough fuel to reach ten gives a
result, and no more than ten requests are sent. -/
theorem Client.doLoop_settles (send : Request → Except String Response)
    (next : List Request → Response → NextHop) (fuel : Nat) (reqs : List Request)
    (req : Request) (hlen : reqs.length < 10) (hfuel : 10 ≤ fuel + reqs.length) :
    ∃ res sent, Client.doLoop CheckRedirect send next fuel reqs req = some (res, sent) ∧
      sent.length ≤ 10 := by
  induction fuel generalizing reqs req with
  | zero => omega
  | succ fuel ih =>
    have hlen' : (reqs ++ [req]).length ≤ 10 := by simp; omega
    rw [Client.doLoop]
    cases hs : send req with
    | error e => exact ⟨_, _, rfl, hlen'⟩
    | ok resp =>
      cases hn : next (reqs ++ [req]) resp with
      | stop =>
        simp only [hn]
        exact ⟨_, _, rfl, hlen'⟩
      | failed e =>
        simp only [hn]
        exact ⟨_, _, rfl, hlen'⟩
      | follow req' =>
        by_cases hten : (reqs ++ [req]).length ≥ 10
        · simp only [hn, CheckRedirect, if_pos hten]
          exact ⟨_, _, rfl, hlen'⟩
        · simp only [hn, CheckRedirect, if_neg hten]
          exact ih (reqs ++ [req]) req' (by simp at hten ⊢; omega) (by simp; omega)

/-- Along a chain whose first ten responses all ask to be followed, the loop
sends the first ten requests of the chain and hands back the tenth response. -/
theorem Client.doLoop_chain (send : Request → Except String Response)
    (next : List Request → Response → NextHop) (chain : Nat → Request)
    (resps : Nat → Response)
    (hchain : ∀ i < 10, send (chain i) = .ok (resps i) ∧
      next ((List.range (i + 1)).map chain) (resps i) = .follow (chain (i + 1)))
    (fuel i : Nat) (hi : i < 10) (hfuel : 10 ≤ fuel + i) :
    Client.doLoop CheckRedirect send next fuel ((List.range i).map chain) (chain i) =
      some (.ok (resps 9), (List.range 10).map chain) := by
  induction fuel generalizing i with
  | zero => omega
  | succ fuel ih =>
    have happ : (List.range i).map chain ++ [chain i] = (List.range (i + 1)).map chain := by
      simp [List.range_succ]
    rw [Client.doLoop]
    simp only [happ, (hchain i hi).1, (hchain i hi).2]
    by_cases hten : i + 1 ≥ 10
    · have h9 : i = 9 := by omega
      subst h9
      simp [CheckRedirect]
    · have hlt : ¬ ((List.range (i + 1)).map chain).length ≥ 10 := by simpa using hten
      simp only [CheckRedirect, if_neg hlt]
      exact ih (i + 1) (by omega) (by omega)

theorem relay_body (resp : Response) :
    (((copyResponseHeaders resp.Header
        (setCORSHeaders ResponseWriter.fresh)).WriteHeader resp.StatusCode).Write
          resp.Body).body = resp.Body := by
  have hst := copyResponseHeaders_status resp.Header (setCORSHeaders ResponseWriter.fresh)
  rw [setCORSHeaders_fresh] at hst
  simp [ResponseWriter.Write, ResponseWriter.WriteHeader, setCORSHeaders_fresh, hst.1, hst.2]

end Resolver

namespace Resolver

/-- C10: the `CheckRedirect` of `main` lets the next redirect be followed when
`via` has fewer than 10 entries and answers `ErrUseLastResponse` otherwise,
never a failure; so the client always settles within ten requests, and on a
chain whose first ten responses all redirect (a chain of eleven hops or more)
it sends exactly the first ten requests and hands back the tenth response
without error, which the handler relays: its status and its body are those of
the tenth hop. -/
theorem redirects_stop_at_tenth_hop
    (parse : String → Except String URL) (validMethod : String → Bool)
    (send : Request → Except String Response)
    (next : List Request → Response → NextHop)
    (chain : Nat → Request) (resps : Nat → Response) (fuel : Nat)
    (hfuel : 10 ≤ fuel)
    (hchain : ∀ i < 10, send (chain i) = .ok (resps i) ∧
      next ((List.range (i + 1)).map chain) (resps i) = .follow (chain (i + 1))) :
    (∀ req via, CheckRedirect req via =
      if via.length < 10 then none else some RedirectError.ErrUseLastResponse) ∧
    (∀ req, ∃ res sent,
      Client.doLoop CheckRedirect send next fuel [] req = some (res, sent) ∧
      sent.length ≤ 10) ∧
    Client.doLoop CheckRedirect send next fuel [] (chain 0) =
      some (.ok (resps 9), (List.range 10).map chain) ∧
    ∀ r : InboundRequest, outbound r = chain 0 → r.Method ≠ "OPTIONS" →
      outbound r ∈ (serve { Parse := parse, validMethod := validMethod,
                            Do := Client.Do send next fuel } r).dispatched →
      (serve { Parse := parse, validMethod := validMethod,
               Do := Client.Do send next fuel } r).w.status =
        some (resps 9).StatusCode ∧
      (serve { Parse := parse, validMethod := validMethod,
               Do := Client.Do send next fuel } r).w.body = (resps 9).Body := by
  have hloop : Client.doLoop CheckRedirect send next fuel [] (chain 0) =
      some (.ok (resps 9), (List.range 10).map chain) := by
    simpa using Client.doLoop_chain send next chain resps hchain fuel 0 (by omega) (by omega)
  refine ⟨?_, ?_, hloop, ?_⟩
  · intro req via
    by_cases h : via.length < 10
    · have h' : ¬ via.length ≥ 10 := by omega
      simp [CheckRedirect, h, h']
    · have h' : via.length ≥ 10 := by omega
      simp [CheckRedirect, h, h']
  · intro req
    exact Client.doLoop_settles send next fuel [] req (by simp) (by simpa using hfuel)
  · intro r hout hm hreq
    have hdo : Client.Do send next fuel (outbound r) = .ok (resps 9) := by
      rw [hout, Client.Do, hloop]
    have hserve := serve_forwarded ⟨parse, validMethod, Client.Do send next fuel⟩ r
      (outbound r) (resps 9) hreq hdo
    rw [hserve, if_neg hm]
    refine ⟨?_, relay_body (resps 9)⟩
    have hst := (copyResponseHeaders_status (resps 9).Header
      (setCORSHeaders ResponseWriter.fresh)).1
    rw [setCORSHeaders_fresh] at hst
    simp [setCORSHeaders_fresh, ResponseWriter.WriteHeader, ResponseWriter.Write, hst]

set_option maxRecDepth 100000 in
theorem redirects_stop_at_tenth_hop_witness :
    (10 ≤ 12) ∧
    (serve { Parse := exampleParse, validMethod := fun m => m != "",
             Do := Client.Do
               (fun req => .ok { StatusCode := 302,
                                 Header := [("Location", [req.URL ++ "r"])],
                                 Body := bytes req.URL })
               (fun _ resp => match resp.Header.get? "Location" with
                 | some (loc :: _) =>
                   .follow { Method := "GET", URL := loc, Header := [], Body := [] }
                 | _ => .stop)
               12 }
      { Method := "GET", Query := [("url", ["http://example.com/"])], Header := [],
        Body := [] }).w.body =
      bytes "http://example.com/rrrrrrrrr" :=
  ⟨by decide,
   ((redirects_stop_at_tenth_hop exampleParse (fun m => m != "")
      (fun req => .ok { StatusCode := 302,
                        Header := [("Location", [req.URL ++ "r"])],
                        Body := bytes req.URL })
      (fun _ resp => match resp.Header.get? "Location" with
        | some (loc :: _) =>
          .follow { Method := "GET", URL := loc, Header := [], Body := [] }
        | _ => .stop)
      (fun i => { Method := "GET",
                  URL := "http://example.com/" ++ ⟨List.replicate i 'r'⟩,
                  Header := [], Body := [] })
      (fun i => { StatusCode := 302,
                  Header := [("Location",
                    ["http://example.com/" ++ ⟨List.replicate i 'r'⟩ ++ "r"])],
                  Body := bytes ("http://example.com/" ++ ⟨List.replicate i 'r'⟩) })
      12 (by decide) (by decide)).2.2.2
      { Method := "GET", Query := [("url", ["http://example.com/"])], Header := [],
        Body := [] }
      (by decide) (by decide) (by decide)).2.trans (by decide)⟩

end Resolver

namespace Resolver

/-! ## The spelling of `Host` -/

/-- A character whose lower case is a given one is that one, or a capital
letter that `Char.toLower` maps to it. -/
theorem toLower_eq (c d : Char) (h : c.toLower = d) :
    c = d ∨ ∃ n, 65 ≤ n ∧ n ≤ 90 ∧ c = Char.ofNat n ∧ Char.ofNat (n + 32) = d := by
  unfold Char.toLower at h
  simp only at h
  split at h
  · rename_i hc
    exact Or.inr ⟨c.toNat, hc.1, hc.2, (Char.ofNat_toNat c).symm, h⟩
  · exact Or.inl h

theorem toLower_eq_h (c : Char) (h : c.toLower = 'h') : c = 'h' ∨ c = 'H' := by
  rcases toLower_eq c 'h' h with h | ⟨n, h1, h2, rfl, h4⟩
  · exact Or.inl h
  · interval_cases n <;> first | exact absurd h4 (by decide) | exact Or.inr rfl

theorem toLower_eq_o (c : Char) (h : c.toLower = 'o') : c = 'o' ∨ c = 'O' := by
  rcases toLower_eq c 'o' h with h | ⟨n, h1, h2, rfl, h4⟩
  · exact Or.inl h
  · interval_cases n <;> first | exact absurd h4 (by decide) | exact Or.inr rfl

theorem toLower_eq_s (c : Char) (h : c.toLower = 's') : c = 's' ∨ c = 'S' := by
  rcases toLower_eq c 's' h with h | ⟨n, h1, h2, rfl, h4⟩
  · exact Or.inl h
  · interval_cases n <;> first | exact absurd h4 (by decide) | exact Or.inr rfl

theorem toLower_eq_t (c : Char) (h : c.toLower = 't') : c = 't' ∨ c = 'T' := by
  rcases toLower_eq c 't' h with h | ⟨n, h1, h2, rfl, h4⟩
  · exact Or.inl h
  · interval_cases n <;> first | exact absurd h4 (by decide) | exact Or.inr rfl

/-- Every spelling of `Host`, whatever the case of its letters, has `Host` as
its canonical spelling. -/
theorem CanonicalHeaderKey_host (name : String) (h : ToLower name = ToLower "Host") :
    CanonicalHeaderKey name = "Host" := by
  obtain ⟨l⟩ := name
  have hl : l.map Char.toLower = ['h', 'o', 's', 't'] := by
    have := congrArg String.data h
    simpa [ToLower] using this
  rcases l with _ | ⟨a, _ | ⟨b, _ | ⟨c, _ | ⟨d, _ | ⟨e, l⟩⟩⟩⟩⟩
  · simp at hl
  · simp at hl
  · simp at hl
  · simp at hl
  · simp only [List.map_cons, List.map_nil, List.cons.injEq, and_true] at hl
    obtain ⟨ha, hb, hc, hd⟩ := hl
    rcases toLower_eq_h a ha with rfl | rfl <;>
    rcases toLower_eq_o b hb with rfl | rfl <;>
    rcases toLower_eq_s c hc with rfl | rfl <;>
    rcases toLower_eq_t d hd with rfl | rfl <;> decide
  · simp at hl

end Resolver

namespace Resolver

/-- The keys the program passes to `Header.Set` are in canonical spelling. -/
theorem set_keys_canonical :
    ∀ k ∈ ["Access-Control-Allow-Origin", "Access-Control-Allow-Methods",
        "Access-Control-Allow-Headers", "Access-Control-Expose-Headers",
        "Content-Type", "X-Content-Type-Options"],
      CanonicalHeaderKey k = k := by
  decide

/-- The copy loop adds no key of its own: a key of its result is a key of the
map it started from or of the map it ranges over. -/
theorem copyRequestHeaders_keys (h acc : Header) (k : String)
    (hk : k ∈ (copyRequestHeaders h acc).keys) : k ∈ acc.keys ∨ k ∈ h.keys := by
  induction h generalizing acc with
  | nil => exact Or.inl hk
  | cons e rest ih =>
    obtain ⟨k0, v0⟩ := e
    have hcons : ∀ x, x ∈ Header.keys ((k0, v0) :: rest) ↔ x = k0 ∨ x ∈ Header.keys rest := by
      intro x
      simp [Header.keys]
    by_cases hc : (!isHopByHopHeader k0 && k0 != "Host") = true
    · rw [copyRequestHeaders, if_pos hc] at hk
      rcases ih _ hk with h1 | h1
      · rcases (Header.keys_assign acc k0 v0 k).1 h1 with h2 | h2
        · exact Or.inr ((hcons k).2 (Or.inl h2))
        · exact Or.inl h2
      · exact Or.inr ((hcons k).2 (Or.inr h1))
    · rw [copyRequestHeaders, if_neg hc] at hk
      rcases ih _ hk with h1 | h1
      · exact Or.inl h1
      · exact Or.inr ((hcons k).2 (Or.inr h1))

/-- C4: every spelling of `Host`, whatever the case of its letters (`Host`,
`host`, `HOST`), has the canonical spelling `Host`, under which the server
stores it; and for every inbound request whose header names are in canonical
spelling, as the server delivers them, no request handed to `client.Do` has a
header whose name equals `Host` once letter case is ignored. -/
theorem host_in_any_case_not_forwarded (env : Env) (r : InboundRequest)
    (hcanon : ∀ k ∈ r.Header.keys, CanonicalHeaderKey k = k) :
    (∀ name, ToLower name = ToLower "Host" → CanonicalHeaderKey name = "Host") ∧
    ∀ req ∈ (serve env r).dispatched, ∀ name, ToLower name = ToLower "Host" →
      name ∉ req.Header.keys := by
  refine ⟨CanonicalHeaderKey_host, ?_⟩
  intro req hreq name hname hmem
  have hhost : "Host" ∉ req.Header.keys := host_not_forwarded env r req hreq
  rw [serve_dispatched env r req hreq] at hmem hhost
  have hin : name ∈ r.Header.keys := by
    rcases copyRequestHeaders_keys r.Header [] name hmem with h | h
    · simp [Header.keys] at h
    · exact h
  have hname' : name = "Host" := by
    rw [← hcanon name hin]
    exact CanonicalHeaderKey_host name hname
  exact hhost (hname' ▸ hmem)

theorem host_in_any_case_not_forwarded_witness :
    (∀ k ∈ Header.keys [("Host", ["relay.example"]), ("Accept", ["*/*"]),
        ("X-Forwarded-Host", ["a.example"])], CanonicalHeaderKey k = k) ∧
    (serve (exampleEnv fun _ => .ok { StatusCode := 200, Header := [], Body := [] })
      { Method := "GET", Query := [("url", ["http://example.com"])],
        Header := [("Host", ["relay.example"]), ("Accept", ["*/*"]),
          ("X-Forwarded-Host", ["a.example"])],
        Body := [] }).dispatched ≠ [] ∧
    ∀ req ∈ (serve (exampleEnv fun _ => .ok { StatusCode := 200, Header := [], Body := [] })
      { Method := "GET", Query := [("url", ["http://example.com"])],
        Header := [("Host", ["relay.example"]), ("Accept", ["*/*"]),
          ("X-Forwarded-Host", ["a.example"])],
        Body := [] }).dispatched, "hOsT" ∉ req.Header.keys :=
  ⟨by decide, by decide,
   fun req hreq =>
    (host_in_any_case_not_forwarded
      (exampleEnv fun _ => .ok { StatusCode := 200, Header := [], Body := [] })
      { Method := "GET", Query := [("url", ["http://example.com"])],
        Header := [("Host", ["relay.example"]), ("Accept", ["*/*"]),
          ("X-Forwarded-Host", ["a.example"])],
        Body := [] }
      (by decide)).2 req hreq "hOsT" (by decide)⟩

end Resolver
